import Mathlib

/-!
# Verification of the `binder` package (HTTP request-to-struct binding)

A shallow embedding of the Go package `binder` (file `binder.go`): the
`Bind` entry point, its per-field source resolution, the type-coercion
functions (`setField` and friends), nested-struct binding (`BindStruct`,
`setStruct`), the body materialization (`parseBody`, `parseContentType`),
and the field-metadata cache (`getFieldInfo`).

Modelling choices, all noted at the definition they concern:
* Loosely-typed request data (Go `interface{}` values produced by the JSON
  and form decoders) is the inductive `Val`.  JSON numbers are modelled as
  `Int` (the claims under verification never involve fractional values).
* Destination struct fields are a `FieldDecl` (name, the five tag values,
  and a `Kind`); the field's current contents are an `FVal`.  The kinds
  modelled are the ones the claims exercise: string, signed int, bool,
  slice, fixed-size array, nested struct, pointer, and a custom
  `encoding.TextUnmarshaler`-implementing type.  (`uint` and float kinds
  are omitted: no claim touches them, and Go floats are not faithfully
  representable here.)
* The JSON and form decoders are external collaborators (stdlib); they are
  passed to `Bind` as function parameters over the captured body bytes.
* The request body stream is `Option (List Nat)`: the bytes still readable
  from the stream.  `io.ReadAll` consumes them; restoring the body with
  `io.NopCloser(bytes.NewBuffer(bodyBytes))` sets the stream back to the
  captured bytes.
* The package-level field-metadata cache `fieldCache` is threaded through
  `Bind` explicitly as a value (its `reflect.Type` key is modelled by a
  type-name string); the mutex discipline is out of scope (sequential
  model).
-/

namespace Binder

/-- Loosely-typed request data: the possible shapes of an `interface{}`
value held in the intermediate body map (JSON decoding yields strings,
numbers, bools, null, nested objects and arrays; form decoding yields
strings and string lists; path/query/cookie sources yield strings). -/
inductive Val where
  | vNull
  | vStr (s : String)
  | vNum (n : Int)
  | vBool (b : Bool)
  | vList (xs : List Val)
  | vMap (m : List (String × Val))
deriving Repr

/-- The static kind of a destination field, mirroring the `reflect.Kind`
dispatch in `setField`.  `kCustom` stands for a named type implementing
`encoding.TextUnmarshaler` (checked before the kind switch in the source);
a fixed-size array or struct type implementing it would likewise be
`kCustom`, so `kArray`/`kStruct` here are types that do not.  Nested
struct fields carry `(name, bodyTag, jsonTag, kind)`: the nested-binding
code (`BindStruct` lines 320-343, `setStruct` lines 620-646) reads only
the `body` and `json` tags of sub-fields, so the other tags are not
modelled at that level. -/
inductive Kind where
  | kString
  | kInt
  | kBool
  | kCustom
  | kSlice (elem : Kind)
  | kArray (len : Nat) (elem : Kind)
  | kStruct (fields : List (String × String × String × Kind))
  | kPtr (elem : Kind)
deriving Repr

/-- A sub-field declaration of a nested struct: name, body tag, json tag,
kind. -/
abbrev SubField := String × String × String × Kind

/-- A top-level destination struct field: its name, its five tag values
(`path`, `query`, `body`, `json`, `cookie`; `""` = tag absent, as in
`reflect.StructTag.Get`), and its kind. -/
structure FieldDecl where
  name : String
  pathTag : String
  queryTag : String
  bodyTag : String
  jsonTag : String
  cookieTag : String
  kind : Kind
deriving Repr

/-- The run-time contents of a destination field. -/
inductive FVal where
  | str (s : String)
  | int (i : Int)
  | bool (b : Bool)
  | custom (s : String)
  | slice (xs : List FVal)
  | arr (xs : List FVal)
  | strukt (vs : List FVal)
  | ptr (v : Option FVal)
deriving Repr

/-- The parts of an `*http.Request` that `Bind` reads: path parameters
(`r.PathValue`), query parameters (`r.URL.Query()`, first value wins),
cookies (`r.Cookie`), the `Content-Type` header, the declared
`ContentLength`, and the body stream (`none` = `r.Body == nil`; `some bs`
= a stream from which `bs` can still be read). -/
structure Request where
  pathParams : List (String × String)
  queryParams : List (String × String)
  cookies : List (String × String)
  contentType : String
  contentLength : Int
  body : Option (List Nat)
deriving Repr, DecidableEq

/-- `fieldInfo` from the source: cached reflection data for one struct
field. -/
structure FieldInfo where
  index : Nat
  source : String
  tagName : String
  omitEmpty : Bool
deriving Repr, DecidableEq

/-- The package-level `fieldCache`, keyed by type identity (modelled by a
type-name string). -/
abbrev FieldCache := List (String × List (String × FieldInfo))

/-! ## String helpers (Go `strings` / `strconv` behaviour) -/

/-- `strings.Contains s sub`: `sub` occurs as a substring of `s` (there is
a split point of `s` at which `sub` is a prefix of the remainder). -/
def goContains (s sub : String) : Bool :=
  (List.range (s.toList.length + 1)).any (fun i => sub.toList.isPrefixOf (s.toList.drop i))

/-- The prefix of `s` up to (excluding) the first comma; `s` itself if it
has no comma.  This is the `strings.Index(paramName, ",")` slicing done in
`Bind`'s query case (lines 168-171). -/
def beforeComma (s : String) : String :=
  String.mk (s.toList.takeWhile (fun c => c != ','))

/-- `strings.Split` on the `;` separator, over the character list. -/
def splitSemi : List Char → List (List Char)
  | [] => [[]]
  | c :: cs =>
    match splitSemi cs with
    | [] => [[]]
    | g :: gs => if c = ';' then [] :: g :: gs else (c :: g) :: gs

/-- ASCII whitespace, for `strings.TrimSpace`. -/
def isSpaceChar (c : Char) : Bool :=
  c = ' ' || c = '\t' || c = '\n' || c = '\r'

/-- `strings.TrimSpace` over the character list. -/
def trimChars (cs : List Char) : List Char :=
  ((cs.dropWhile isSpaceChar).reverse.dropWhile isSpaceChar).reverse

/-- `parseContentType` from the source: split the header on `;`, trim each
part, return the first part not containing `=`, lower-cased; `""` if every
part contains `=`. -/
def parseContentType (header : String) : String :=
  match ((splitSemi header.toList).map trimChars).find? (fun p => !p.contains '=') with
  | some p => String.mk (p.map Char.toLower)
  | none => ""

/-- Decimal digits to a natural number. -/
def digitsToNat (cs : List Char) : Nat :=
  cs.foldl (fun acc c => acc * 10 + (c.toNat - '0'.toNat)) 0

/-- `strconv.ParseInt(s, 10, 64)`: optional `+`/`-` sign followed by a
non-empty run of decimal digits.  (The int64 range check is not modelled;
no claim involves out-of-range values.) -/
def goParseInt (s : String) : Option Int :=
  match s.toList with
  | '-' :: rest =>
    if rest ≠ [] ∧ rest.all Char.isDigit then some (-(digitsToNat rest : Int)) else none
  | '+' :: rest =>
    if rest ≠ [] ∧ rest.all Char.isDigit then some ((digitsToNat rest : Int)) else none
  | cs =>
    if cs ≠ [] ∧ cs.all Char.isDigit then some ((digitsToNat cs : Int)) else none

/-- `strconv.ParseBool`: the exact literal set accepted by Go. -/
def goParseBool (s : String) : Option Bool :=
  if s = "1" ∨ s = "t" ∨ s = "T" ∨ s = "TRUE" ∨ s = "true" ∨ s = "True" then some true
  else if s = "0" ∨ s = "f" ∨ s = "F" ∨ s = "FALSE" ∨ s = "false" ∨ s = "False" then some false
  else none

/-- The Go type name of a `Val`, as `fmt`'s `%T` would print it for the
values the decoders produce (used only inside error messages). -/
def goTypeName : Val → String
  | .vNull => "<nil>"
  | .vStr _ => "string"
  | .vNum _ => "float64"
  | .vBool _ => "bool"
  | .vList _ => "[]interface {}"
  | .vMap _ => "map[string]interface {}"

mutual

/-- `fmt.Sprintf("%v", v)` for the shapes a `Val` can take; the `toString`
helper of the source falls back to this for non-string values. -/
def govToString : Val → String
  | .vNull => "<nil>"
  | .vStr s => s
  | .vNum n => toString n
  | .vBool b => if b then "true" else "false"
  | .vList xs => "[" ++ govToStrings xs ++ "]"
  | .vMap m => "map[" ++ govToStringsMap m ++ "]"

/-- Space-separated rendering of list elements (Go `%v` of a slice). -/
def govToStrings : List Val → String
  | [] => ""
  | [x] => govToString x
  | x :: xs => govToString x ++ " " ++ govToStrings xs

/-- `k:v` space-separated rendering of map entries (Go `%v` of a map). -/
def govToStringsMap : List (String × Val) → String
  | [] => ""
  | [(k, v)] => k ++ ":" ++ govToString v
  | (k, v) :: m => k ++ ":" ++ govToString v ++ " " ++ govToStringsMap m

end

/-- `isEmptyValue` from the source: emptiness of the *raw incoming value*
(nil, empty string, zero number, false, empty slice/map). -/
def isEmptyValue : Val → Bool
  | .vNull => true
  | .vStr s => s.length == 0
  | .vNum n => n == 0
  | .vBool b => !b
  | .vList xs => xs.isEmpty
  | .vMap m => m.isEmpty

mutual

/-- The zero value of a kind: what `reflect.New(T)` points at. -/
def zeroVal : Kind → FVal
  | .kString => .str ""
  | .kInt => .int 0
  | .kBool => .bool false
  | .kCustom => .custom ""
  | .kSlice _ => .slice []
  | .kArray n e => .arr (List.replicate n (zeroVal e))
  | .kStruct fs => .strukt (zeroVals fs)
  | .kPtr _ => .ptr none

/-- Zero values of a nested struct's fields. -/
def zeroVals : List SubField → List FVal
  | [] => []
  | (_, _, _, k) :: fs => zeroVal k :: zeroVals fs

end

mutual

/-- `setField` from the source (lines 391-448): coerce a raw `Val` into a
field of static kind `k` whose current contents are `cur`.  The order of
checks follows the source: (1) a nil value is a no-op; (2) an
`encoding.TextUnmarshaler` destination (`kCustom`) consumes a string and
errors on any other shape; (3) dispatch on the destination kind.  On error
the caller's field keeps `cur` (in the source, `setStruct` may have
already mutated some sub-fields in place before a later sub-field errors;
no claim under verification depends on that in-field partial state, and
this model returns the error without the partial state). -/
def setField : Kind → FVal → Val → Except String FVal
  | _, cur, .vNull => .ok cur
  | .kCustom, _, v =>
    match v with
    | .vStr s => .ok (.custom s)
    | _ => .error "value is not a string for TextUnmarshaler"
  | .kString, _, v => .ok (.str (govToString v))
  | .kInt, _, v =>
    match v with
    | .vNum n => .ok (.int n)
    | .vStr s =>
      match goParseInt s with
      | some i => .ok (.int i)
      | none => .error ("strconv.ParseInt: parsing \"" ++ s ++ "\": invalid syntax")
    | _ => .error ("cannot convert " ++ goTypeName v ++ " to int")
  | .kBool, _, v =>
    match v with
    | .vBool b => .ok (.bool b)
    | .vStr s =>
      match goParseBool s with
      | some b => .ok (.bool b)
      | none => .error ("strconv.ParseBool: parsing \"" ++ s ++ "\": invalid syntax")
    | .vNum n => .ok (.bool (n != 0))
    | _ => .error ("cannot convert " ++ goTypeName v ++ " to bool")
  | .kSlice ek, _, v =>
    match v with
    | .vList xs => (setSliceElems ek 0 xs).map FVal.slice
    | .vStr s =>
      match ek with
      | .kString => .ok (.slice [.str s])
      | _ => .error "cannot convert string to slice"
    | _ => .error ("cannot convert " ++ goTypeName v ++ " to slice")
  | .kArray _ _, _, _ => .error "arrays are not supported, use slices instead"
  | .kStruct fs, cur, v =>
    match v with
    | .vMap m =>
      match cur with
      | .strukt vs => (setStructFields fs vs m).map FVal.strukt
      | _ => (setStructFields fs (zeroVals fs) m).map FVal.strukt
    | _ => .error ("cannot set struct field with value of type " ++ goTypeName v)
  | .kPtr ek, cur, v =>
    let pv := match cur with
      | .ptr (some p) => p
      | _ => zeroVal ek
    (setField ek pv v).map (fun fv => .ptr (some fv))
termination_by k _ _ => (sizeOf k, 1, 0)
decreasing_by all_goals (simp_wf; simp [Prod.lex_def]; try omega)

/-- `setSlice`'s element loop (lines 586-599): each destination element
starts from the element type's zero value (`reflect.MakeSlice`); a
one-level pointer element is allocated and dereferenced first; an element
error is wrapped with its index and aborts (the destination field is only
assigned after the whole loop, so it keeps its old value on error). -/
def setSliceElems (ek : Kind) (i : Nat) : List Val → Except String (List FVal)
  | [] => .ok []
  | x :: xs =>
    let r := match ek with
      | .kPtr inner => (setField inner (zeroVal inner) x).map (fun fv => FVal.ptr (some fv))
      | ek2 => setField ek2 (zeroVal ek2) x
    match r with
    | .error e => .error ("error setting slice element at index " ++ toString i ++ ": " ++ e)
    | .ok fv => (setSliceElems ek (i + 1) xs).map (fv :: ·)
termination_by xs => (sizeOf ek + 1, 0, sizeOf xs)
decreasing_by all_goals (simp_wf; simp [Prod.lex_def]; try omega)

/-- `setStruct`'s field loop (lines 621-639): for each sub-field take the
`body` tag, falling back to the `json` tag; a sub-field with no tag or no
matching key in the map is left unchanged; a sub-field error is wrapped
with the sub-field's name in single quotes and aborts. -/
def setStructFields : List SubField → List FVal → List (String × Val) → Except String (List FVal)
  | [], vs, _ => .ok vs
  | _ :: _, [], _ => .ok []
  | (nm, bt, jt, k) :: fs, fv :: fvs, m =>
    let tagValue := if bt ≠ "" then bt else jt
    if tagValue = "" then (setStructFields fs fvs m).map (fv :: ·)
    else
      match m.lookup tagValue with
      | none => (setStructFields fs fvs m).map (fv :: ·)
      | some nv =>
        match setField k fv nv with
        | .error e => .error ("error setting nested field '" ++ nm ++ "': " ++ e)
        | .ok fv2 => (setStructFields fs fvs m).map (fv2 :: ·)
termination_by fs _ _ => (sizeOf fs + 1, 0, 0)
decreasing_by all_goals (simp_wf; simp [Prod.lex_def]; try omega)

end

/-- `BindStruct`'s field loop (lines 320-343): for each sub-field of the
target struct take the `body` tag, falling back to the `json` tag; skip
tagless sub-fields and keys absent from the data map; allocate a nil
pointer sub-field before setting it; a sub-field error is wrapped with
the sub-field's name (no quotes here, unlike `setStruct`). -/
def bindStructFields : List SubField → List FVal → List (String × Val) → Except String (List FVal)
  | [], vs, _ => .ok vs
  | _ :: _, [], _ => .ok []
  | (nm, bt, jt, k) :: fs, fv :: fvs, data =>
    let tag := if bt ≠ "" then bt else jt
    if tag = "" then (bindStructFields fs fvs data).map (fv :: ·)
    else
      match data.lookup tag with
      | none => (bindStructFields fs fvs data).map (fv :: ·)
      | some nv =>
        let fv1 := match k, fv with
          | .kPtr ek, .ptr none => FVal.ptr (some (zeroVal ek))
          | _, _ => fv
        match setField k fv1 nv with
        | .error e => .error ("error setting nested field " ++ nm ++ ": " ++ e)
        | .ok fv2 => (bindStructFields fs fvs data).map (fv2 :: ·)

/-- `BindStruct` from the source (lines 310-345): if the field is a
pointer, allocate it when nil and bind into the pointee; the target is
always a struct when called from `Bind` (a non-struct target would make
`NumField` panic in Go and is returned unchanged here). -/
def BindStruct (k : Kind) (cur : FVal) (data : List (String × Val)) : Except String FVal :=
  match k with
  | .kPtr ek =>
    let pv := match cur with
      | .ptr (some p) => p
      | _ => zeroVal ek
    match ek with
    | .kStruct fs =>
      let vs := match pv with
        | .strukt vs => vs
        | _ => zeroVals fs
      (bindStructFields fs vs data).map (fun vs2 => .ptr (some (.strukt vs2)))
    | _ => .ok (.ptr (some pv))
  | .kStruct fs =>
    let vs := match cur with
      | .strukt vs => vs
      | _ => zeroVals fs
    (bindStructFields fs vs data).map FVal.strukt
  | _ => .ok cur

/-- `parseBody` from the source (lines 359-388): dispatch on the parsed
content type.  The JSON and form decoders are the external stdlib
collaborators (`encoding/json`, `http.Request.ParseForm`), passed in as
functions of the captured body bytes; a form field appearing once becomes
a string, more than once a list of strings; an unrecognized content type
yields an empty map and no error. -/
def parseBody (jsonDec : List Nat → Except String (List (String × Val)))
    (formDec : List Nat → Except String (List (String × List String)))
    (contentTypeHeader : String) (bodyBytes : List Nat) :
    Except String (List (String × Val)) :=
  let ct := parseContentType contentTypeHeader
  if ct = "application/json" then
    match jsonDec bodyBytes with
    | .error e => .error ("failed to decode JSON body: " ++ e)
    | .ok m => .ok m
  else if ct = "application/x-www-form-urlencoded" then
    match formDec bodyBytes with
    | .error e => .error ("failed to parse form data: " ++ e)
    | .ok form =>
      .ok (form.map (fun kv =>
        (kv.1, match kv.2 with
          | [v] => Val.vStr v
          | vs => Val.vList (vs.map Val.vStr))))
  else
    .ok []

/-- The `switch` of `Bind`'s field loop (lines 162-191): resolve the raw
value and the existence flag from the field's winning source, in the fixed
order path, query, body, json, cookie.  `none` is the `default: continue`
case (no recognized tag).  Note that only the query case cuts the tag at
the first comma; path, body, json and cookie use the full tag value as the
lookup key. -/
def resolveSource (r : Request) (b : List (String × Val)) (fd : FieldDecl) :
    Option (Val × Bool) :=
  if fd.pathTag ≠ "" then
    let s := (r.pathParams.lookup fd.pathTag).getD ""
    some (.vStr s, s ≠ "")
  else if fd.queryTag ≠ "" then
    let paramName := beforeComma fd.queryTag
    let s := (r.queryParams.lookup paramName).getD ""
    some (.vStr s, s ≠ "")
  else if fd.bodyTag ≠ "" then
    match b.lookup fd.bodyTag with
    | some v => some (v, true)
    | none => some (.vNull, false)
  else if fd.jsonTag ≠ "" then
    match b.lookup fd.jsonTag with
    | some v => some (v, true)
    | none => some (.vNull, false)
  else if fd.cookieTag ≠ "" then
    match r.cookies.lookup fd.cookieTag with
    | some s => some (.vStr s, true)
    | none => some (.vNull, false)
  else none

/-- The concatenation of a field's five tag values, exactly as built on
line 157 of the source. -/
def concatTags (fd : FieldDecl) : String :=
  fd.pathTag ++ fd.queryTag ++ fd.bodyTag ++ fd.jsonTag ++ fd.cookieTag

/-- Line 157 of the source: `omitEmpty` is `strings.Contains` of
`"omitempty"` in the concatenation of all five tag values of the field —
not a per-winning-tag check. -/
def omitEmptyOf (fd : FieldDecl) : Bool :=
  goContains (concatTags fd) "omitempty"

/-- One iteration of `Bind`'s field loop (lines 146-214) on a single
field: resolve the source, apply the skip rule, allocate a nil pointer
destination, hand a nested struct destination with a map value to
`BindStruct`, otherwise coerce via `setField`; errors are wrapped with the
field's declared name.  Returns the error (if any) and the field's new
contents (its old contents when skipped or when the error occurred before
any assignment to it). -/
def bindField1 (r : Request) (b : List (String × Val)) (fd : FieldDecl) (fv : FVal) :
    Option String × FVal :=
  match resolveSource r b fd with
  | none => (none, fv)
  | some (v, exsts) =>
    if !exsts || (omitEmptyOf fd && isEmptyValue v) then (none, fv)
    else
      let fv1 := match fd.kind, fv with
        | .kPtr ek, .ptr none => FVal.ptr (some (zeroVal ek))
        | _, _ => fv
      let nested := match fd.kind with
        | .kStruct _ => true
        | .kPtr (.kStruct _) => true
        | _ => false
      match nested, v with
      | true, .vMap m =>
        match BindStruct fd.kind fv1 m with
        | .error e => (some ("error binding nested field " ++ fd.name ++ ": " ++ e), fv1)
        | .ok fv2 => (none, fv2)
      | _, _ =>
        match setField fd.kind fv1 v with
        | .error e => (some ("error setting field " ++ fd.name ++ ": " ++ e), fv1)
        | .ok fv2 => (none, fv2)

/-- `Bind`'s field loop (lines 146-214) over the declared fields paired
with their current contents: the first field error aborts the loop,
leaving every later field untouched and every earlier field with its
newly assigned contents. -/
def bindFields (r : Request) (b : List (String × Val)) :
    List FieldDecl → List FVal → Option String × List FVal
  | [], fvs => (none, fvs)
  | _ :: _, [] => (none, [])
  | fd :: fds, fv :: fvs =>
    match bindField1 r b fd fv with
    | (some msg, fv2) => (some msg, fv2 :: fvs)
    | (none, fv2) =>
      match bindFields r b fds fvs with
      | (e, rest) => (e, fv2 :: rest)

/-- The body-materialization prologue of `Bind` (lines 117-143): when a
body stream is present and the declared content length is positive, read
all of it (`io.ReadAll`), restore the stream with a fresh reader over the
captured bytes, and parse a copy; a parse error is swallowed and replaced
by an empty map.  Otherwise the intermediate body map is empty and the
request is untouched.  Returns the intermediate body map and the request
as it is after the prologue. -/
def computeBody (jsonDec : List Nat → Except String (List (String × Val)))
    (formDec : List Nat → Except String (List (String × List String)))
    (r : Request) : List (String × Val) × Request :=
  match r.body with
  | some bs =>
    if r.contentLength > 0 then
      let r1 : Request := { r with body := some bs }
      match parseBody jsonDec formDec r.contentType bs with
      | .error _ => ([], r1)
      | .ok m => (m, r1)
    else ([], r)
  | none => ([], r)

/-- The outcome of one `Bind` call: the returned error (if any), the
destination record's field contents after the call (mutation through the
pointer is visible to the caller even on error), the request after the
call (its body stream may have been read and restored), and the
package-level field cache after the call. -/
structure BindResult where
  err : Option String
  vals : List FVal
  req : Request
  cache : FieldCache
deriving Repr

/-- `Bind` from the source (lines 113-224).  The destination record is
`fds` (field declarations) paired with `vals` (current contents); the
optional `validate` is the `Validator` capability of the destination type
(`none` when the type does not implement it); `cache` is the package-level
`fieldCache`, which `Bind` never touches. -/
def Bind (jsonDec : List Nat → Except String (List (String × Val)))
    (formDec : List Nat → Except String (List (String × List String)))
    (validate : Option (List FVal → Option String))
    (cache : FieldCache) (r : Request)
    (fds : List FieldDecl) (vals : List FVal) : BindResult :=
  let br := computeBody jsonDec formDec r
  let eb := bindFields br.2 br.1 fds vals
  let e : Option String :=
    match eb.1 with
    | some msg => some msg
    | none =>
      match validate with
      | none => none
      | some vf =>
        match vf eb.2 with
        | some verr => some ("validation failed: " ++ verr)
        | none => none
  ⟨e, eb.2, br.2, cache⟩

/-- The per-field body of `getFieldInfo`'s loop (lines 246-293): the first
non-empty tag in the order path, query, body, json, cookie wins; a field
with no recognized tag gets no entry; `OmitEmpty` is `strings.Contains`
of the winning tag's value only. -/
def buildFieldInfo : Nat → List FieldDecl → List (String × FieldInfo)
  | _, [] => []
  | i, fd :: fds =>
    let rest := buildFieldInfo (i + 1) fds
    if fd.pathTag ≠ "" then
      (fd.name, ⟨i, "path", fd.pathTag, goContains fd.pathTag "omitempty"⟩) :: rest
    else if fd.queryTag ≠ "" then
      (fd.name, ⟨i, "query", fd.queryTag, goContains fd.queryTag "omitempty"⟩) :: rest
    else if fd.bodyTag ≠ "" then
      (fd.name, ⟨i, "body", fd.bodyTag, goContains fd.bodyTag "omitempty"⟩) :: rest
    else if fd.jsonTag ≠ "" then
      (fd.name, ⟨i, "json", fd.jsonTag, goContains fd.jsonTag "omitempty"⟩) :: rest
    else if fd.cookieTag ≠ "" then
      (fd.name, ⟨i, "cookie", fd.cookieTag, goContains fd.cookieTag "omitempty"⟩) :: rest
    else rest

/-- `getFieldInfo` from the source (lines 227-297), sequentially: return
the cached entry for the type when present, otherwise build it and store
it.  (The read/write lock and the double-checked re-read are concurrency
discipline with no sequential content.)  Type identity is modelled by a
type-name key.  This function is defined here to make the frame claim
about `Bind` meaningful: no code path of `Bind` calls it. -/
def getFieldInfo (cache : FieldCache) (typName : String) (fds : List FieldDecl) :
    List (String × FieldInfo) × FieldCache :=
  match cache.lookup typName with
  | some info => (info, cache)
  | none =>
    let info := buildFieldInfo 0 fds
    (info, (typName, info) :: cache)

/-! ## Concrete fixtures (used by witnesses and counterexamples) -/

/-- A request with no body: path parameter `id`, query parameters `a`,
`b`, `name`, and a cookie `tok`. -/
def rFix : Request :=
  ⟨[("id", "42")], [("a", "hello"), ("b", "abc"), ("name", "V")], [("tok", "T")], "", 0, none⟩

/-- A request carrying a JSON body of declared length 5. -/
def rBody : Request :=
  ⟨[], [], [], "application/json", 5, some [10, 20]⟩

/-- A JSON decoder fixture producing `{"email": "a@b.io"}`. -/
def jdOk : List Nat → Except String (List (String × Val)) :=
  fun _ => .ok [("email", .vStr "a@b.io")]

/-- A JSON decoder fixture that always fails (malformed JSON). -/
def jdBoom : List Nat → Except String (List (String × Val)) :=
  fun _ => .error "boom"

/-- A form decoder fixture that always fails (malformed form encoding). -/
def fmBoom : List Nat → Except String (List (String × List String)) :=
  fun _ => .error "boom"

/-! ## Helper lemmas -/

/-- The body prologue never changes the request: either it is left alone,
or the stream is restored with exactly the captured bytes. -/
theorem computeBody_req (jd : List Nat → Except String (List (String × Val)))
    (fm : List Nat → Except String (List (String × List String))) (r : Request) :
    (computeBody jd fm r).2 = r := by
  obtain ⟨pp, qp, ck, ct, cl, bd⟩ := r
  cases bd with
  | none => rfl
  | some bs =>
    by_cases hcl : cl > 0
    · cases hpb : parseBody jd fm ct bs <;> simp [computeBody, hcl, hpb]
    · simp [computeBody, hcl]

/-- Projections of `Bind` in terms of its two phases. -/
theorem Bind_req (jd : List Nat → Except String (List (String × Val)))
    (fm : List Nat → Except String (List (String × List String)))
    (vl : Option (List FVal → Option String)) (c : FieldCache) (r : Request)
    (fds : List FieldDecl) (vals : List FVal) :
    (Bind jd fm vl c r fds vals).req = r := by
  have h : (Bind jd fm vl c r fds vals).req = (computeBody jd fm r).2 := rfl
  rw [h, computeBody_req]

/-- A decoder pair that always succeeds with an empty map makes
`parseBody` return an empty map for every content type. -/
theorem parseBody_okEmpty (ct : String) (bs : List Nat) :
    parseBody (fun _ => .ok []) (fun _ => .ok []) ct bs = .ok [] := by
  unfold parseBody
  by_cases h1 : parseContentType ct = "application/json" <;>
    by_cases h2 : parseContentType ct = "application/x-www-form-urlencoded" <;>
      simp [h1, h2]

/-! ## Claims -/

/-- C9: no execution path of `Bind` reads or writes the package-level
field metadata cache: `Bind` returns the cache it was given unchanged, and
its returned error, destination contents, and request state are identical
for any two cache contents.  (`getFieldInfo`, the only reader/writer of
the cache, is defined above and is invoked by no function `Bind` calls.) -/
theorem c9_cache_frame (jd : List Nat → Except String (List (String × Val)))
    (fm : List Nat → Except String (List (String × List String)))
    (vl : Option (List FVal → Option String)) (c c' : FieldCache) (r : Request)
    (fds : List FieldDecl) (vals : List FVal) :
    (Bind jd fm vl c r fds vals).cache = c
    ∧ (Bind jd fm vl c r fds vals).err = (Bind jd fm vl c' r fds vals).err
    ∧ (Bind jd fm vl c r fds vals).vals = (Bind jd fm vl c' r fds vals).vals
    ∧ (Bind jd fm vl c r fds vals).req = (Bind jd fm vl c' r fds vals).req :=
  ⟨rfl, rfl, rfl, rfl⟩

/-- C3: for a field declaring several recognized source markers, the raw
value is resolved only from the earlier-precedence source in the fixed
order path, query, body, json, cookie; the markers after the winning one
are ignored (changing them does not change the resolution), and the
resolved value comes from the winning source's lookup alone. -/
theorem c3_source_precedence (r : Request) (b : List (String × Val))
    (nm p q bo j ck q2 bo2 j2 ck2 : String) (k : Kind) :
    (p ≠ "" →
      resolveSource r b ⟨nm, p, q, bo, j, ck, k⟩ = resolveSource r b ⟨nm, p, q2, bo2, j2, ck2, k⟩
      ∧ resolveSource r b ⟨nm, p, q, bo, j, ck, k⟩
          = some (Val.vStr ((r.pathParams.lookup p).getD ""),
                  decide ((r.pathParams.lookup p).getD "" ≠ "")))
    ∧ (p = "" → q ≠ "" →
      resolveSource r b ⟨nm, p, q, bo, j, ck, k⟩ = resolveSource r b ⟨nm, p, q, bo2, j2, ck2, k⟩
      ∧ resolveSource r b ⟨nm, p, q, bo, j, ck, k⟩
          = some (Val.vStr ((r.queryParams.lookup (beforeComma q)).getD ""),
                  decide ((r.queryParams.lookup (beforeComma q)).getD "" ≠ "")))
    ∧ (p = "" → q = "" → bo ≠ "" →
      resolveSource r b ⟨nm, p, q, bo, j, ck, k⟩ = resolveSource r b ⟨nm, p, q, bo, j2, ck2, k⟩
      ∧ resolveSource r b ⟨nm, p, q, bo, j, ck, k⟩
          = some ((b.lookup bo).getD Val.vNull, (b.lookup bo).isSome))
    ∧ (p = "" → q = "" → bo = "" → j ≠ "" →
      resolveSource r b ⟨nm, p, q, bo, j, ck, k⟩ = resolveSource r b ⟨nm, p, q, bo, j, ck2, k⟩
      ∧ resolveSource r b ⟨nm, p, q, bo, j, ck, k⟩
          = some ((b.lookup j).getD Val.vNull, (b.lookup j).isSome))
    ∧ (p = "" → q = "" → bo = "" → j = "" → ck ≠ "" →
      resolveSource r b ⟨nm, p, q, bo, j, ck, k⟩
        = some (((r.cookies.lookup ck).map Val.vStr).getD Val.vNull,
                (r.cookies.lookup ck).isSome)) := by
  refine ⟨?_, ?_, ?_, ?_, ?_⟩
  · intro hp
    constructor <;> simp [resolveSource, hp]
  · intro hp hq
    constructor <;> simp [resolveSource, hp, hq]
  · intro hp hq hbo
    constructor
    · simp [resolveSource, hp, hq, hbo]
    · cases hl : b.lookup bo <;> simp [resolveSource, hp, hq, hbo, hl]
  · intro hp hq hbo hj
    constructor
    · simp [resolveSource, hp, hq, hbo, hj]
    · cases hl : b.lookup j <;> simp [resolveSource, hp, hq, hbo, hj, hl]
  · intro hp hq hbo hj hck
    cases hl : r.cookies.lookup ck <;> simp [resolveSource, hp, hq, hbo, hj, hck, hl]

/-- Witness for C3: a field declaring both a `path` tag `id` and markers
for all four other sources resolves from the path parameter alone, and the
losing markers can be replaced freely without changing the resolution. -/
theorem c3_source_precedence_witness :
    resolveSource rFix [] ⟨"F", "id", "a", "bb", "jj", "tok", .kString⟩
      = resolveSource rFix [] ⟨"F", "id", "x", "y", "z", "w", .kString⟩
    ∧ resolveSource rFix [] ⟨"F", "id", "a", "bb", "jj", "tok", .kString⟩
      = some (.vStr "42", true) := by
  have h := (c3_source_precedence rFix [] "F" "id" "a" "bb" "jj" "tok" "x" "y" "z" "w"
    .kString).1 (by decide)
  exact ⟨h.1, h.2.trans (by rfl)⟩

/-- C5: for a request with a readable body of positive declared length,
one `Bind` call leaves the request with a body stream holding exactly the
original bytes (they can be read once more, neither truncated nor
duplicated), so a second sequential `Bind` — of a possibly different
destination — runs on an identical request and observes the same
body-derived values. -/
theorem c5_body_restored (jd : List Nat → Except String (List (String × Val)))
    (fm : List Nat → Except String (List (String × List String)))
    (vl : Option (List FVal → Option String)) (c : FieldCache) (r : Request)
    (fds : List FieldDecl) (vals : List FVal) (bs : List Nat)
    (hb : r.body = some bs) (_hcl : r.contentLength > 0) :
    (Bind jd fm vl c r fds vals).req.body = some bs
    ∧ (Bind jd fm vl c r fds vals).req = r
    ∧ ∀ (jd2 : List Nat → Except String (List (String × Val)))
        (fm2 : List Nat → Except String (List (String × List String)))
        (vl2 : Option (List FVal → Option String)) (c2 : FieldCache)
        (fds2 : List FieldDecl) (vals2 : List FVal),
        Bind jd2 fm2 vl2 c2 (Bind jd fm vl c r fds vals).req fds2 vals2
          = Bind jd2 fm2 vl2 c2 r fds2 vals2 := by
  have hreq : (Bind jd fm vl c r fds vals).req = r := Bind_req jd fm vl c r fds vals
  refine ⟨?_, hreq, ?_⟩
  · rw [hreq, hb]
  · intro jd2 fm2 vl2 c2 fds2 vals2
    rw [hreq]

/-- Witness for C5: a concrete bind of a body-sourced string field leaves
the request unchanged, and a second bind of a different destination shape
gives the same result as binding it on the fresh request. -/
theorem c5_body_restored_witness :
    (Bind jdOk fmBoom none [] rBody
        [⟨"Email", "", "", "email", "", "", .kString⟩] [.str ""]).req.body = some [10, 20]
    ∧ (Bind jdOk fmBoom none [] rBody
        [⟨"Email", "", "", "email", "", "", .kString⟩] [.str ""]).req = rBody
    ∧ Bind jdOk fmBoom none []
        (Bind jdOk fmBoom none [] rBody
          [⟨"Email", "", "", "email", "", "", .kString⟩] [.str ""]).req
        [⟨"E2", "", "", "", "email", "", .kString⟩] [.str "x"]
        = Bind jdOk fmBoom none [] rBody
            [⟨"E2", "", "", "", "email", "", .kString⟩] [.str "x"] := by
  have h := c5_body_restored jdOk fmBoom none [] rBody
    [⟨"Email", "", "", "email", "", "", .kString⟩] [.str ""] [10, 20] (by rfl) (by decide)
  exact ⟨h.1, h.2.1, h.2.2 jdOk fmBoom none [] [⟨"E2", "", "", "", "email", "", .kString⟩] [.str "x"]⟩

/-- C4: a body-decode failure or an unrecognized content type never makes
`Bind` return an error: the body prologue yields an empty intermediate
body map and an unchanged request, and the whole call behaves exactly as
if the decoders had successfully produced an empty map — so path-, query-
and cookie-sourced fields still bind normally. -/
theorem c4_body_failure_nonfatal (jd : List Nat → Except String (List (String × Val)))
    (fm : List Nat → Except String (List (String × List String)))
    (vl : Option (List FVal → Option String)) (c : FieldCache) (r : Request)
    (fds : List FieldDecl) (vals : List FVal)
    (h : (∃ bs e, r.body = some bs ∧ r.contentLength > 0
            ∧ parseBody jd fm r.contentType bs = .error e)
       ∨ (parseContentType r.contentType ≠ "application/json"
          ∧ parseContentType r.contentType ≠ "application/x-www-form-urlencoded")) :
    computeBody jd fm r = ([], r)
    ∧ Bind jd fm vl c r fds vals
        = Bind (fun _ => .ok []) (fun _ => .ok []) vl c r fds vals := by
  have hcb : computeBody jd fm r = ([], r) := by
    obtain ⟨pp, qp, ck, ct, cl, bd⟩ := r
    rcases h with ⟨bs, e, hb, hcl, hpe⟩ | ⟨h1, h2⟩
    · simp only at hb
      subst hb
      simp only at hcl hpe
      simp [computeBody, hcl, hpe]
    · simp only at h1 h2
      cases bd with
      | none => rfl
      | some bs =>
        by_cases hcl : cl > 0
        · have hpb : parseBody jd fm ct bs = .ok [] := by
            unfold parseBody
            simp [h1, h2]
          simp [computeBody, hcl, hpb]
        · simp [computeBody, hcl]
  have hcb2 : computeBody (fun _ => .ok []) (fun _ => .ok []) r = ([], r) := by
    obtain ⟨pp, qp, ck, ct, cl, bd⟩ := r
    cases bd with
    | none => rfl
    | some bs =>
      by_cases hcl : cl > 0
      · simp [computeBody, hcl, parseBody_okEmpty]
      · simp [computeBody, hcl]
  refine ⟨hcb, ?_⟩
  simp only [Bind, hcb, hcb2]

/-- Witness for C4: binding a query-sourced field with a failing JSON
decoder on a JSON-typed body — the prologue substitutes an empty map, the
call equals the empty-decoder call, and the query field still binds. -/
theorem c4_body_failure_nonfatal_witness :
    computeBody jdBoom fmBoom ⟨[], [("a", "hello")], [], "application/json", 5, some [10, 20]⟩
      = ([], ⟨[], [("a", "hello")], [], "application/json", 5, some [10, 20]⟩)
    ∧ Bind jdBoom fmBoom none [] ⟨[], [("a", "hello")], [], "application/json", 5, some [10, 20]⟩
        [⟨"A", "", "a", "", "", "", .kString⟩] [.str ""]
      = Bind (fun _ => .ok []) (fun _ => .ok []) none []
          ⟨[], [("a", "hello")], [], "application/json", 5, some [10, 20]⟩
          [⟨"A", "", "a", "", "", "", .kString⟩] [.str ""] :=
  c4_body_failure_nonfatal jdBoom fmBoom none []
    ⟨[], [("a", "hello")], [], "application/json", 5, some [10, 20]⟩
    [⟨"A", "", "a", "", "", "", .kString⟩] [.str ""]
    (Or.inl ⟨[10, 20], "failed to decode JSON body: boom", rfl, by decide, by rfl⟩)

/-- C10: for a request with no body stream or a non-positive declared
content length (including `-1` for chunked bodies), the prologue neither
reads nor replaces the stream and yields an empty intermediate body map,
the request comes back from `Bind` unchanged, and every body/json-sourced
field resolves as absent and is left unchanged. -/
theorem c10_no_body_skip (jd : List Nat → Except String (List (String × Val)))
    (fm : List Nat → Except String (List (String × List String)))
    (vl : Option (List FVal → Option String)) (c : FieldCache) (r : Request)
    (fds : List FieldDecl) (vals : List FVal)
    (h : r.body = none ∨ r.contentLength ≤ 0) :
    computeBody jd fm r = ([], r)
    ∧ (Bind jd fm vl c r fds vals).req = r
    ∧ ∀ (fd : FieldDecl) (fv : FVal), fd.pathTag = "" → fd.queryTag = "" →
        (fd.bodyTag ≠ "" ∨ fd.jsonTag ≠ "") →
        bindField1 r [] fd fv = (none, fv) := by
  refine ⟨?_, Bind_req jd fm vl c r fds vals, ?_⟩
  · obtain ⟨pp, qp, ck, ct, cl, bd⟩ := r
    rcases h with hb | hcl
    · simp only at hb
      subst hb
      rfl
    · simp only at hcl
      cases bd with
      | none => rfl
      | some bs => simp [computeBody, show ¬ (cl > 0) by omega]
  · intro fd fv h1 h2 h3
    by_cases hbo : fd.bodyTag = ""
    · have hj : fd.jsonTag ≠ "" := by
        rcases h3 with h3 | h3
        · exact absurd hbo h3
        · exact h3
      simp [bindField1, resolveSource, h1, h2, hbo, hj]
    · simp [bindField1, resolveSource, h1, h2, hbo]

/-- Witness for C10: a chunked request (`ContentLength = -1`) with a live
body stream: the map is empty, the request is unchanged, and a
body-sourced field keeps its prior contents. -/
theorem c10_no_body_skip_witness :
    computeBody jdOk fmBoom ⟨[], [], [], "application/json", -1, some [7]⟩
      = ([], ⟨[], [], [], "application/json", -1, some [7]⟩)
    ∧ (Bind jdOk fmBoom none [] ⟨[], [], [], "application/json", -1, some [7]⟩
        [⟨"Email", "", "", "email", "", "", .kString⟩] [.str "keep"]).req
      = ⟨[], [], [], "application/json", -1, some [7]⟩
    ∧ bindField1 ⟨[], [], [], "application/json", -1, some [7]⟩ []
        ⟨"Email", "", "", "email", "", "", .kString⟩ (.str "keep") = (none, .str "keep") := by
  have h := c10_no_body_skip jdOk fmBoom none [] ⟨[], [], [], "application/json", -1, some [7]⟩
    [⟨"Email", "", "", "email", "", "", .kString⟩] [.str "keep"] (Or.inr (by decide))
  exact ⟨h.1, h.2.1, h.2.2 ⟨"Email", "", "", "email", "", "", .kString⟩ (.str "keep")
    rfl rfl (Or.inl (by decide))⟩

/-- C7: when the field loop finishes without error and the destination
implements the validation capability, `Bind` invokes it once, on the fully
bound record: a validation error is returned wrapped with
`validation failed: ` while the destination keeps all bound field values,
and a nil validation result makes the whole bind succeed with the same
record. -/
theorem c7_validator (jd : List Nat → Except String (List (String × Val)))
    (fm : List Nat → Except String (List (String × List String)))
    (vf : List FVal → Option String) (c : FieldCache) (r : Request)
    (fds : List FieldDecl) (vals vals' : List FVal)
    (hb : bindFields (computeBody jd fm r).2 (computeBody jd fm r).1 fds vals
            = (none, vals')) :
    (∀ verr, vf vals' = some verr →
      Bind jd fm (some vf) c r fds vals
        = ⟨some ("validation failed: " ++ verr), vals', (computeBody jd fm r).2, c⟩)
    ∧ (vf vals' = none →
      Bind jd fm (some vf) c r fds vals = ⟨none, vals', (computeBody jd fm r).2, c⟩) := by
  constructor
  · intro verr hv
    simp only [Bind, hb, hv]
  · intro hv
    simp only [Bind, hb, hv]

/-- Every error produced by one iteration of the field loop is wrapped
with the field's declared name, either as a nested-binding error or as a
field-setting error. -/
theorem bindField1_error_name (r : Request) (b : List (String × Val))
    (fd : FieldDecl) (fv fv' : FVal) (msg : String)
    (h : bindField1 r b fd fv = (some msg, fv')) :
    ∃ e0, msg = "error binding nested field " ++ fd.name ++ ": " ++ e0
        ∨ msg = "error setting field " ++ fd.name ++ ": " ++ e0 := by
  unfold bindField1 at h
  rcases hr : resolveSource r b fd with _ | ⟨v, exsts⟩ <;> rw [hr] at h
  · simp at h
  · simp only at h
    split at h
    · simp at h
    · split at h
      · split at h
        · rename_i e heq
          simp only [Prod.mk.injEq, Option.some.injEq] at h
          exact ⟨e, Or.inl h.1.symm⟩
        · simp at h
      · split at h
        · rename_i e heq
          simp only [Prod.mk.injEq, Option.some.injEq] at h
          exact ⟨e, Or.inr h.1.symm⟩
        · simp at h

/-- The field loop over an error-free prefix followed by a failing field:
the loop stops at the failing field with its wrapped error, the prefix
keeps its newly bound contents, and the suffix is untouched. -/
theorem bindFields_append_err (r : Request) (b : List (String × Val)) :
    ∀ (fdsPre : List FieldDecl) (valsPre valsPre' : List FVal),
    fdsPre.length = valsPre.length →
    bindFields r b fdsPre valsPre = (none, valsPre') →
    ∀ (fd : FieldDecl) (fv fv' : FVal) (msg : String),
    bindField1 r b fd fv = (some msg, fv') →
    ∀ (fdsSuf : List FieldDecl) (valsSuf : List FVal),
    bindFields r b (fdsPre ++ fd :: fdsSuf) (valsPre ++ fv :: valsSuf)
      = (some msg, valsPre' ++ fv' :: valsSuf) := by
  intro fdsPre
  induction fdsPre with
  | nil =>
    intro valsPre valsPre' hlen hpre fd fv fv' msg hfail fdsSuf valsSuf
    have hv : valsPre = [] := List.length_eq_zero.mp hlen.symm
    subst hv
    have : valsPre' = [] := by
      have : (none, valsPre') = ((none : Option String), ([] : List FVal)) := by
        rw [← hpre]; rfl
      simpa using this.symm
    subst this
    simp [bindFields, hfail]
  | cons fd0 fds0 ih =>
    intro valsPre valsPre' hlen hpre fd fv fv' msg hfail fdsSuf valsSuf
    rcases valsPre with _ | ⟨fv0, vs0⟩
    · simp at hlen
    · rcases h0 : bindField1 r b fd0 fv0 with ⟨e0, fv02⟩
      cases e0 with
      | some m0 =>
        rw [bindFields, h0] at hpre
        simp at hpre
      | none =>
        rw [bindFields, h0] at hpre
        rcases h1 : bindFields r b fds0 vs0 with ⟨e1, rest1⟩
        rw [h1] at hpre
        simp only [Prod.mk.injEq] at hpre
        obtain ⟨he1, hv'⟩ := hpre
        subst he1
        subst hv'
        have hlen0 : fds0.length = vs0.length := by simpa using hlen
        have := ih vs0 rest1 hlen0 h1 fd fv fv' msg hfail fdsSuf valsSuf
        simp only [List.cons_append]
        rw [bindFields, h0, this]

/-- C6: when a field's coercion fails, `Bind` returns at once with the
error wrapped with that field's declared name, the validator is not
consulted, every field after the failing one keeps its original contents
untouched, and every field bound before it keeps its newly assigned value
(no rollback). -/
theorem c6_field_error_aborts (jd : List Nat → Except String (List (String × Val)))
    (fm : List Nat → Except String (List (String × List String)))
    (vl : Option (List FVal → Option String)) (c : FieldCache) (r : Request)
    (fdsPre : List FieldDecl) (valsPre valsPre' : List FVal)
    (fd : FieldDecl) (fv fv' : FVal) (msg : String)
    (fdsSuf : List FieldDecl) (valsSuf : List FVal)
    (hlen : fdsPre.length = valsPre.length)
    (hpre : bindFields (computeBody jd fm r).2 (computeBody jd fm r).1 fdsPre valsPre
              = (none, valsPre'))
    (hfail : bindField1 (computeBody jd fm r).2 (computeBody jd fm r).1 fd fv
              = (some msg, fv')) :
    Bind jd fm vl c r (fdsPre ++ fd :: fdsSuf) (valsPre ++ fv :: valsSuf)
      = ⟨some msg, valsPre' ++ fv' :: valsSuf, (computeBody jd fm r).2, c⟩
    ∧ ∃ e0, msg = "error binding nested field " ++ fd.name ++ ": " ++ e0
          ∨ msg = "error setting field " ++ fd.name ++ ": " ++ e0 := by
  have hbf := bindFields_append_err (computeBody jd fm r).2 (computeBody jd fm r).1
    fdsPre valsPre valsPre' hlen hpre fd fv fv' msg hfail fdsSuf valsSuf
  constructor
  · simp only [Bind, hbf]
  · exact bindField1_error_name _ _ fd fv fv' msg hfail

/-- Witness for C6: three query-sourced fields; `A` binds `"hello"`, `B`
fails to coerce `"abc"` into an int, `C` is never touched.  The bind stops
with the error wrapped with `B`, keeps `A`'s new value, and leaves `C`'s
sentinel alone. -/
theorem c6_field_error_aborts_witness :
    Bind jdBoom fmBoom none [] rFix
        [⟨"A", "", "a", "", "", "", .kString⟩,
         ⟨"B", "", "b", "", "", "", .kInt⟩,
         ⟨"C", "", "c", "", "", "", .kString⟩]
        [.str "", .int 0, .str "untouched"]
      = ⟨some "error setting field B: strconv.ParseInt: parsing \"abc\": invalid syntax",
         [.str "hello", .int 0, .str "untouched"], rFix, []⟩
    ∧ ∃ e0, "error setting field B: strconv.ParseInt: parsing \"abc\": invalid syntax"
              = "error binding nested field " ++ "B" ++ ": " ++ e0
          ∨ "error setting field B: strconv.ParseInt: parsing \"abc\": invalid syntax"
              = "error setting field " ++ "B" ++ ": " ++ e0 := by
  have hsfB : setField .kInt (.int 0) (.vStr "abc")
      = .error "strconv.ParseInt: parsing \"abc\": invalid syntax" := by
    have h : goParseInt "abc" = none := by decide
    simp [setField, h]
  have hfail : bindField1 rFix [] ⟨"B", "", "b", "", "", "", .kInt⟩ (.int 0)
      = (some "error setting field B: strconv.ParseInt: parsing \"abc\": invalid syntax",
         .int 0) := by
    have hrB : resolveSource rFix [] ⟨"B", "", "b", "", "", "", .kInt⟩
        = some (.vStr "abc", true) := by rfl
    have ho : omitEmptyOf ⟨"B", "", "b", "", "", "", .kInt⟩ = false := by rfl
    simp [bindField1, hrB, ho, isEmptyValue, hsfB]
  have hA : bindField1 rFix [] ⟨"A", "", "a", "", "", "", .kString⟩ (.str "")
      = (none, .str "hello") := by
    have hrA : resolveSource rFix [] ⟨"A", "", "a", "", "", "", .kString⟩
        = some (.vStr "hello", true) := by rfl
    have hoA : omitEmptyOf ⟨"A", "", "a", "", "", "", .kString⟩ = false := by rfl
    have hsfA : setField .kString (.str "") (.vStr "hello") = .ok (.str "hello") := by
      simp [setField, govToString]
    simp [bindField1, hrA, hoA, isEmptyValue, hsfA]
  have hpre : bindFields rFix [] [⟨"A", "", "a", "", "", "", .kString⟩] [.str ""]
      = (none, [.str "hello"]) := by
    simp [bindFields, hA]
  exact c6_field_error_aborts jdBoom fmBoom none [] rFix
    [⟨"A", "", "a", "", "", "", .kString⟩] [.str ""] [.str "hello"]
    ⟨"B", "", "b", "", "", "", .kInt⟩ (.int 0) (.int 0)
    "error setting field B: strconv.ParseInt: parsing \"abc\": invalid syntax"
    [⟨"C", "", "c", "", "", "", .kString⟩] [.str "untouched"]
    (by decide) hpre hfail

/-- Witness for C7: a query-sourced field binds `"hello"`; a validator
that rejects surfaces a wrapped validation error while the record keeps
the bound value; a validator that accepts leaves the same record with no
error. -/
theorem c7_validator_witness :
    Bind jdBoom fmBoom (some (fun _ => some "user must be 18 or older")) [] rFix
        [⟨"A", "", "a", "", "", "", .kString⟩] [.str ""]
      = ⟨some ("validation failed: " ++ "user must be 18 or older"), [.str "hello"], rFix, []⟩
    ∧ Bind jdBoom fmBoom (some (fun _ => none)) [] rFix
        [⟨"A", "", "a", "", "", "", .kString⟩] [.str ""]
      = ⟨none, [.str "hello"], rFix, []⟩ := by
  have hA : bindField1 rFix [] ⟨"A", "", "a", "", "", "", .kString⟩ (.str "")
      = (none, .str "hello") := by
    have hrA : resolveSource rFix [] ⟨"A", "", "a", "", "", "", .kString⟩
        = some (.vStr "hello", true) := by rfl
    have hoA : omitEmptyOf ⟨"A", "", "a", "", "", "", .kString⟩ = false := by rfl
    have hsfA : setField .kString (.str "") (.vStr "hello") = .ok (.str "hello") := by
      simp [setField, govToString]
    simp [bindField1, hrA, hoA, isEmptyValue, hsfA]
  have hpre : bindFields rFix [] [⟨"A", "", "a", "", "", "", .kString⟩] [.str ""]
      = (none, [.str "hello"]) := by
    simp [bindFields, hA]
  exact ⟨(c7_validator jdBoom fmBoom (fun _ => some "user must be 18 or older") [] rFix
            [⟨"A", "", "a", "", "", "", .kString⟩] [.str ""] [.str "hello"] hpre).1
          "user must be 18 or older" rfl,
         (c7_validator jdBoom fmBoom (fun _ => none) [] rFix
            [⟨"A", "", "a", "", "", "", .kString⟩] [.str ""] [.str "hello"] hpre).2 rfl⟩

/-- C1 (divergence of the code from the claim): the claim says that for
every source the lookup key is the winning marker's value up to its first
comma.  Only the query case does this.  Evaluating the code: a field
tagged `body:"email,omitempty"` against a JSON body `{"email":"a@b.io"}`
binds nothing (the whole tag value `"email,omitempty"` misses the body
map, while the comma-stripped key `"email"` would have hit), `Bind`
returns no error, and the field keeps its zero value — contradicting the
package's own documented example `Email string body:"email,omitempty"`.
The same full-tag lookup happens for path and cookie, while the query
source does strip the comma. -/
theorem c1_lookup_key_divergence :
    (Bind jdOk fmBoom none [] rBody
        [⟨"Email", "", "", "email,omitempty", "", "", .kString⟩] [.str ""]).err = none
    ∧ (Bind jdOk fmBoom none [] rBody
        [⟨"Email", "", "", "email,omitempty", "", "", .kString⟩] [.str ""]).vals = [.str ""]
    ∧ List.lookup "email,omitempty" [("email", Val.vStr "a@b.io")] = none
    ∧ beforeComma "email,omitempty" = "email"
    ∧ List.lookup (beforeComma "email,omitempty") [("email", Val.vStr "a@b.io")]
        = some (Val.vStr "a@b.io")
    ∧ resolveSource rFix [] ⟨"P", "id,omitempty", "", "", "", "", .kString⟩
        = some (.vStr "", false)
    ∧ resolveSource rFix [] ⟨"Tok", "", "", "", "", "tok,omitempty", .kString⟩
        = some (.vNull, false)
    ∧ resolveSource rFix [] ⟨"Q", "", "name,omitempty", "", "", "", .kString⟩
        = some (.vStr "V", true) :=
  ⟨rfl, rfl, rfl, rfl, rfl, rfl, rfl, rfl⟩

/-- Counterexample for C2: a field whose winning marker is `body:"email"`
(no `omitempty`) but which carries a losing marker `cookie:"tok,omitempty"`
is treated as omitEmpty — line 157 searches the concatenation of all five
tag values — so a present-but-empty body value leaves the sentinel in
place, while the identical field without the losing modifier overwrites
it.  The losing marker does influence the behaviour, refuting the claim. -/
theorem c2_counterexample :
    omitEmptyOf ⟨"F", "", "", "email", "", "tok,omitempty", .kString⟩ = true
    ∧ goContains "email" "omitempty" = false
    ∧ bindField1 rFix [("email", Val.vStr "")]
        ⟨"F", "", "", "email", "", "tok,omitempty", .kString⟩ (.str "sentinel")
        = (none, .str "sentinel")
    ∧ bindField1 rFix [("email", Val.vStr "")]
        ⟨"F", "", "", "email", "", "tok", .kString⟩ (.str "sentinel")
        = (none, .str "") := by
  refine ⟨by decide, by decide, by rfl, ?_⟩
  have hr : resolveSource rFix [("email", Val.vStr "")]
      ⟨"F", "", "", "email", "", "tok", .kString⟩ = some (.vStr "", true) := by rfl
  have ho : omitEmptyOf ⟨"F", "", "", "email", "", "tok", .kString⟩ = false := by rfl
  have hsf : setField .kString (.str "sentinel") (.vStr "") = .ok (.str "") := by
    simp [setField, govToString]
  simp [bindField1, hr, ho, isEmptyValue, hsf]

/-- C2 amended: omitEmpty is in effect iff `"omitempty"` occurs as a
substring of the **concatenation** of the field's path, query, body, json
and cookie marker values (line 157) — so losing markers, and stray
occurrences inside key names, do count.  Behaviourally: a body-sourced
string field receiving a present-but-empty string is skipped when that
concatenation contains `"omitempty"` and overwritten with `""` when it
does not. -/
theorem c2_omitempty_amended (r : Request) (b : List (String × Val))
    (fd : FieldDecl) (fv : FVal)
    (h1 : fd.pathTag = "") (h2 : fd.queryTag = "") (h3 : fd.bodyTag ≠ "")
    (h4 : b.lookup fd.bodyTag = some (Val.vStr "")) (h5 : fd.kind = .kString) :
    bindField1 r b fd fv = (if omitEmptyOf fd then (none, fv) else (none, FVal.str ""))
    ∧ omitEmptyOf fd
        = goContains (fd.pathTag ++ fd.queryTag ++ fd.bodyTag ++ fd.jsonTag ++ fd.cookieTag)
            "omitempty" := by
  have hr : resolveSource r b fd = some (.vStr "", true) := by
    simp [resolveSource, h1, h2, h3, h4]
  refine ⟨?_, rfl⟩
  by_cases ho : omitEmptyOf fd
  · simp [bindField1, hr, ho, isEmptyValue]
  · have hsf : setField .kString fv (.vStr "") = .ok (.str "") := by
      simp [setField, govToString]
    simp [bindField1, hr, ho, isEmptyValue, h5, hsf]

/-- Witness for C2's amended claim: a field with winning marker
`body:"email"` and losing marker `cookie:"x,omitempty"` receiving an empty
string is skipped, and its omitEmpty flag equals the substring check on
the tag concatenation. -/
theorem c2_omitempty_amended_witness :
    bindField1 rFix [("email", Val.vStr "")]
        ⟨"F", "", "", "email", "", "x,omitempty", .kString⟩ (.str "s")
      = (if omitEmptyOf ⟨"F", "", "", "email", "", "x,omitempty", .kString⟩
          then (none, FVal.str "s") else (none, FVal.str ""))
    ∧ omitEmptyOf ⟨"F", "", "", "email", "", "x,omitempty", .kString⟩
        = goContains ("" ++ "" ++ "email" ++ "" ++ "x,omitempty") "omitempty" :=
  c2_omitempty_amended rFix [("email", Val.vStr "")]
    ⟨"F", "", "", "email", "", "x,omitempty", .kString⟩ (.str "s")
    rfl rfl (by decide) rfl rfl

/-- Counterexample for C8: a raw `null` bound to a fixed-size array field
does *not* produce the "arrays are not supported" error — `setField`
returns nil for a nil value before the kind dispatch (line 393), leaving
the field untouched and the bind successful. -/
theorem c8_counterexample :
    setField (.kArray 2 .kInt) (.arr [.int 0, .int 0]) .vNull
      = .ok (.arr [.int 0, .int 0])
    ∧ ∀ e : String,
        setField (.kArray 2 .kInt) (.arr [.int 0, .int 0]) .vNull ≠ .error e := by
  have h : setField (.kArray 2 .kInt) (.arr [.int 0, .int 0]) .vNull
      = .ok (.arr [.int 0, .int 0]) := by simp [setField]
  refine ⟨h, fun e he => ?_⟩
  rw [h] at he
  exact Except.noConfusion he

/-- C8 amended: every **non-null** raw value — string, number, bool, map
or sequence — coerced into a fixed-size array destination (one that does
not implement the from-text capability) fails with the explicit
`arrays are not supported, use slices instead` error; a null raw value is
a silent no-op instead. -/
theorem c8_array_rejection_amended (n : Nat) (ek : Kind) (cur : FVal) (v : Val)
    (h : v ≠ .vNull) :
    setField (.kArray n ek) cur v = .error "arrays are not supported, use slices instead" := by
  cases v with
  | vNull => exact absurd rfl h
  | vStr s => simp [setField]
  | vNum m => simp [setField]
  | vBool b => simp [setField]
  | vList xs => simp [setField]
  | vMap m => simp [setField]

/-- Witness for C8's amended claim: a string bound to a `[3]string`
destination errors with the explicit array-rejection message. -/
theorem c8_array_rejection_amended_witness :
    Val.vStr "x" ≠ Val.vNull
    ∧ setField (.kArray 3 .kString) (.arr [.str "", .str "", .str ""]) (.vStr "x")
        = .error "arrays are not supported, use slices instead" :=
  ⟨by simp, c8_array_rejection_amended 3 .kString (.arr [.str "", .str "", .str ""])
    (.vStr "x") (by simp)⟩

end Binder
